import Mathlib

/-!
Verification of the baas-client command/session protocol layer.

This file gives a shallow embedding of the protocol-relevant parts of
`pkg/client/program.go` and `pkg/client/baas.go` of the Integrail/baas-client
repository, and proves or refutes the frozen specification claims about them.

Go strings are embedded as `List Char`; Go byte slices holding UTF-8 text are
likewise `List Char`.  Machine integers that matter here (HTTP status codes,
element indices) are embedded as `Nat`/`Int`; no arithmetic overflow is
involved in any modelled code path.
-/

namespace BaasClient

/-- Abbreviation for the character list of a string literal (Go string
literals appearing in the source are written through this). -/
def lit (s : String) : List Char := s.data

/-! ## Command encoder (program.go)

`ActionOption` is `func(args []string) []string` in Go: a transformer of the
accumulated option-flag list.  Flags are `List Char` (Go strings). -/

/-- Embeds Go type `ActionOption func(args []string) []string`
(program.go line 20). -/
def ActionOption : Type := List (List Char) → List (List Char)

/-- Embeds `WithoutTimeout` (program.go lines 24-28): appends the flag
`withoutTimeout`. -/
def WithoutTimeout : ActionOption := fun args => args ++ [lit "withoutTimeout"]

/-- Embeds `WithAllowTags` (program.go lines 32-36):
appends `allowTags:<csv>` built with `strings.Join(tags, ",")`. -/
def WithAllowTags (tags : List (List Char)) : ActionOption :=
  fun args => args ++ [lit "allowTags:" ++ (tags.intersperse (lit ",")).flatten]

/-- Embeds `WithAllowAttrs` (program.go lines 40-44):
appends `allowAttributes:<csv>`. -/
def WithAllowAttrs (attrs : List (List Char)) : ActionOption :=
  fun args => args ++ [lit "allowAttributes:" ++ (attrs.intersperse (lit ",")).flatten]

/-- Embeds `WithTimeout` (program.go lines 48-52): appends `timeout:<dur>`. -/
def WithTimeout (timeout : List Char) : ActionOption :=
  fun args => args ++ [lit "timeout:" ++ timeout]

/-- Embeds `WithSelector` (program.go lines 56-60): appends `selector:<sel>`. -/
def WithSelector (selector : List Char) : ActionOption :=
  fun args => args ++ [lit "selector:" ++ selector]

/-- Embeds `WithSecretArgs` (program.go lines 64-68): appends `secretArgs`. -/
def WithSecretArgs : ActionOption := fun args => args ++ [lit "secretArgs"]

/-- Embeds `WithIncludeInvisible` (program.go lines 72-76):
appends `includeInvisible`. -/
def WithIncludeInvisible : ActionOption :=
  fun args => args ++ [lit "includeInvisible"]

/-- Embeds `WithIframe` (program.go lines 80-84): appends `iframe:<sel>`. -/
def WithIframe (selector : List Char) : ActionOption :=
  fun args => args ++ [lit "iframe:" ++ selector]

/-- Embeds `strings.Join(elems, sep)` for the tail of a nonempty list:
`joinSepRest sep l` is `sep ++ l0 ++ sep ++ l1 ++ ...`. -/
def joinSepRest (sep : List Char) : List (List Char) → List Char
  | [] => []
  | a :: rest => sep ++ a ++ joinSepRest sep rest

/-- Embeds `strings.Join(elems, sep)`. -/
def joinSep (sep : List Char) : List (List Char) → List Char
  | [] => []
  | a :: rest => a ++ joinSepRest sep rest

/-- Embeds `(*program).addArgs` (program.go lines 780-790): folds the option
transformers over the empty accumulator in caller order, and if the result is
nonempty renders
`", " + fmt.Sprintf("'%s'", strings.Join(addArgs, "','"))`. -/
def addArgs (opts : List ActionOption) : List Char :=
  let args := opts.foldl (fun acc opt => opt acc) []
  if args = [] then []
  else lit ", " ++ '\'' :: (joinSep (lit "','") args ++ ['\''])

/-- Embeds `(*program).functionCall0` (program.go lines 726-728):
`fmt.Sprintf("%s(%s)", name, p.addArgs(opts))`. -/
def functionCall0 (name : List Char) (opts : List ActionOption) : List Char :=
  name ++ '(' :: (addArgs opts ++ [')'])

/-- Embeds `(*program).functionCall1` (program.go lines 730-732):
`fmt.Sprintf("%s('%s'%s)", name, arg1, p.addArgs(opts))`. -/
def functionCall1 (name arg1 : List Char) (opts : List ActionOption) : List Char :=
  name ++ '(' :: '\'' :: (arg1 ++ '\'' :: (addArgs opts ++ [')']))

/-- Embeds `(*program).functionCall2` (program.go lines 734-736):
`fmt.Sprintf("%s('%s', '%s'%s)", name, arg1, arg2, p.addArgs(opts))`. -/
def functionCall2 (name arg1 arg2 : List Char) (opts : List ActionOption) : List Char :=
  name ++ '(' :: '\'' :: (arg1 ++ '\'' :: ',' :: ' ' :: '\'' :: (arg2 ++ '\'' :: (addArgs opts ++ [')'])))

/-- One decimal digit character, used to embed Go integer formatting: code
point 48 plus the digit.  The argument is reduced modulo ten for totality;
every call site passes a value below ten. -/
def digitChar (d : Nat) : Char := Char.ofNat (48 + d % 10)

/-- Decimal rendering of a natural number, fuel-indexed helper: the fuel only
needs to exceed the number of digits, and `natChars` always supplies enough. -/
def natCharsAux : Nat → Nat → List Char
  | 0, _ => []
  | fuel + 1, n =>
    if n < 10 then [digitChar n]
    else natCharsAux fuel (n / 10) ++ [digitChar (n % 10)]

/-- Decimal rendering of a natural number, most significant digit first
(embeds the digit output of `fmt.Sprint`/`%d` for nonnegative values). -/
def natChars (n : Nat) : List Char := natCharsAux (n + 1) n

/-- Embeds Go `fmt.Sprint`/`%d` rendering of an integer. -/
def renderInt (n : Int) : List Char :=
  if n < 0 then '-' :: natChars n.natAbs else natChars n.natAbs

/-- One `any`-typed argument of `functionCallN` (program.go line 738): Go
discriminates `string`, `ActionOption`, `[]ActionOption`, and formats every
other value with `fmt.Sprint`; integer arguments are the only such values at
the call sites, embedded by `num`. -/
inductive NArg where
  | str (s : List Char)
  | num (n : Int)
  | opt (o : ActionOption)
  | opts (os : List ActionOption)

/-- Embeds the argument-classification loop of `functionCallN`
(program.go lines 743-754): splits the argument list, in order, into the
rendered positional strings and the collected options. -/
def collectN : List NArg → List (List Char) × List ActionOption
  | [] => ([], [])
  | NArg.str s :: rest => let p := collectN rest; (s :: p.1, p.2)
  | NArg.num n :: rest => let p := collectN rest; (renderInt n :: p.1, p.2)
  | NArg.opt o :: rest => let p := collectN rest; (p.1, o :: p.2)
  | NArg.opts l :: rest => let p := collectN rest; (p.1, l ++ p.2)

/-- The quoted-argument writer loop of `functionCallN`
(program.go lines 760-767), tail after the first argument:
writes `", '" arg "'"` for each argument. -/
def quoteJoinRest : List (List Char) → List Char
  | [] => []
  | a :: rest => lit ", " ++ '\'' :: (a ++ '\'' :: quoteJoinRest rest)

/-- The quoted-argument writer loop of `functionCallN`
(program.go lines 760-767): writes `'arg1', 'arg2', ...`. -/
def quoteJoin : List (List Char) → List Char
  | [] => []
  | a :: rest => '\'' :: (a ++ '\'' :: quoteJoinRest rest)

/-- Embeds `(*program).functionCallN` (program.go lines 738-778): classifies
arguments, writes the quoted positional arguments, then appends the option
string; when there are no positional arguments and the option string is longer
than two characters its leading `", "` is stripped. -/
def functionCallN (name : List Char) (args : List NArg) : List Char :=
  let p := collectN args
  let extra := addArgs p.2
  let tail :=
    if extra = [] then []
    else if p.1 = [] ∧ 2 < extra.length then extra.drop 2
    else extra
  name ++ '(' :: (quoteJoin p.1 ++ tail ++ [')'])

/-- Embeds the `fmt.Sprintf("clickN('%s', %d%s)", selector, index,
p.addArgs(opts))` call site of `(*program).ClickN` (program.go line 297),
representative of the numeric-argument Sprintf call sites. -/
def clickNCommand (selector : List Char) (index : Int) (opts : List ActionOption) : List Char :=
  lit "clickN('" ++ selector ++ lit "', " ++ renderInt index ++ addArgs opts ++ [')']

/-- Character-list value of the literal `", "` used by `addArgs`. -/
theorem lit_comma_space : lit ", " = [',', ' '] := by decide

/-- Character-list value of the literal `"','"` used by `addArgs`. -/
theorem lit_quote_comma_quote : lit "','" = ['\'', ',', '\''] := by decide

/-! ## Claims C2 and C3: encoder equivalence and exact option rendering -/

/-- Claim C2 counterexample: the fixed-arity and variadic builders are not
byte-identical for every logical call.  With zero positional arguments and
one option, `functionCall0` renders `logURL(, 'timeout:2s')` (keeping the
leading comma-space of the option string) while `functionCallN` strips it and
renders `logURL('timeout:2s')`; and at the numeric Sprintf call sites the
index is rendered unquoted (`clickN('.a', 3)`) while `functionCallN` quotes
every non-option argument (`clickN('.a', '3')`). -/
theorem c2_counterexample :
    functionCall0 (lit "logURL") [WithTimeout (lit "2s")] = lit "logURL(, 'timeout:2s')"
    ∧ functionCallN (lit "logURL") [NArg.opts [WithTimeout (lit "2s")]] = lit "logURL('timeout:2s')"
    ∧ functionCall0 (lit "logURL") [WithTimeout (lit "2s")]
      ≠ functionCallN (lit "logURL") [NArg.opts [WithTimeout (lit "2s")]]
    ∧ clickNCommand (lit ".a") 3 [] = lit "clickN('.a', 3)"
    ∧ functionCallN (lit "clickN") [NArg.str (lit ".a"), NArg.num 3] = lit "clickN('.a', '3')"
    ∧ clickNCommand (lit ".a") 3 []
      ≠ functionCallN (lit "clickN") [NArg.str (lit ".a"), NArg.num 3] := by
  refine ⟨by decide, by decide, by decide, by decide, by decide, by decide⟩

/-- Claim C2 amended: the fixed-arity builders of arity 1 and 2 agree with the
variadic builder for every operation name, every pair of string positional
arguments and every ordered option list; the arity-0 builder agrees exactly
in the case where the rendered option string is empty (with options present,
`functionCall0` keeps a stray leading `", "` that `functionCallN` strips),
and the numeric Sprintf call sites are excluded (they render the number
unquoted while `functionCallN` quotes it). -/
theorem fixedArity_eq_functionCallN (name a1 a2 : List Char) (opts : List ActionOption) :
    functionCall1 name a1 opts = functionCallN name [NArg.str a1, NArg.opts opts]
    ∧ functionCall2 name a1 a2 opts
      = functionCallN name [NArg.str a1, NArg.str a2, NArg.opts opts]
    ∧ (addArgs opts = [] → functionCall0 name opts = functionCallN name [NArg.opts opts]) := by
  refine ⟨?_, ?_, ?_⟩
  · by_cases h : addArgs opts = [] <;>
      simp [functionCall1, functionCallN, collectN, quoteJoin, quoteJoinRest, h]
  · by_cases h : addArgs opts = [] <;>
      simp [functionCall2, functionCallN, collectN, quoteJoin, quoteJoinRest, h,
        lit_comma_space]
  · intro h
    simp [functionCall0, functionCallN, collectN, quoteJoin, h]

/-- Claim C2 amended, witness at concrete inputs. -/
theorem fixedArity_eq_functionCallN_witness :
    functionCall1 (lit "click") (lit ".button") [WithTimeout (lit "2s")]
      = functionCallN (lit "click") [NArg.str (lit ".button"), NArg.opts [WithTimeout (lit "2s")]]
    ∧ functionCall0 (lit "logURL") [] = functionCallN (lit "logURL") [NArg.opts []] := by
  exact ⟨(fixedArity_eq_functionCallN (lit "click") (lit ".button") (lit "x")
      [WithTimeout (lit "2s")]).1,
    (fixedArity_eq_functionCallN (lit "logURL") (lit "x") (lit "x") []).2.2 (by decide)⟩

/-- Claim C3 counterexample: the encoded command for
`click('.button')` with options `[WithTimeout("2s"), WithIncludeInvisible()]`
is not the claimed string `click('.button', 'timeout:2s', 'includeInvisible')`:
`addArgs` joins option flags with `"','"`, so there is no space after the
comma separating the two option flags. -/
theorem c3_counterexample :
    functionCall1 (lit "click") (lit ".button")
      [WithTimeout (lit "2s"), WithIncludeInvisible]
      ≠ lit "click('.button', 'timeout:2s', 'includeInvisible')" := by decide

/-- Claim C3 amended: the encoded command is exactly
`click('.button', 'timeout:2s','includeInvisible')` — the two option flags
are separated by `','` with no space, while the separator between the
positional argument and the first option flag is `", "`. -/
theorem click_timeout_includeInvisible_exact :
    functionCall1 (lit "click") (lit ".button")
      [WithTimeout (lit "2s"), WithIncludeInvisible]
      = lit "click('.button', 'timeout:2s','includeInvisible')" := by decide

/-! ## Transport status check (baas.go, runClient) -/

/-- The status code and body of an HTTP response, as observed by `runClient`
(baas.go lines 72-79). -/
structure HTTPResponse where
  statusCode : Nat
  body : List Char
deriving DecidableEq

/-- The transport error built by `runClient` for a bad status:
`fmt.Errorf("failed to fetch the page: status code %d: %s", ...)` carrying
the status code and the response body (baas.go line 77). -/
inductive TransportErr where
  | badStatus (status : Nat) (body : List Char)
deriving DecidableEq

/-- Embeds the status check of `(*baasClient).runClient` (baas.go lines
76-79): `if resp.StatusCode != http.StatusOK` (that is, `!= 200`) the call
fails with a transport error carrying the status code and body; otherwise the
response is returned for parsing. -/
def runClientStatusCheck (resp : HTTPResponse) : Except TransportErr HTTPResponse :=
  if resp.statusCode ≠ 200 then Except.error (TransportErr.badStatus resp.statusCode resp.body)
  else Except.ok resp

/-- Claim C8 counterexample: a response with status 201 — inside the 2xx
range — is rejected as a transport failure, because the code compares against
`http.StatusOK` (200) exactly, not against the 2xx range. -/
theorem c8_counterexample :
    runClientStatusCheck ⟨201, lit "created"⟩
      = Except.error (TransportErr.badStatus 201 (lit "created")) := rfl

/-- Claim C8 amended: `runClient` fails with a transport error carrying the
HTTP status code and the response body exactly when the status is not 200;
only a status-200 response is accepted and passed on for parsing. -/
theorem runClient_status_check (resp : HTTPResponse) :
    (resp.statusCode ≠ 200 →
      runClientStatusCheck resp = Except.error (TransportErr.badStatus resp.statusCode resp.body))
    ∧ (resp.statusCode = 200 → runClientStatusCheck resp = Except.ok resp) := by
  constructor
  · intro h
    simp [runClientStatusCheck, h]
  · intro h
    simp [runClientStatusCheck, h]

/-- Claim C8 amended, witness at concrete inputs. -/
theorem runClient_status_check_witness :
    runClientStatusCheck ⟨404, lit "not found"⟩
      = Except.error (TransportErr.badStatus 404 (lit "not found"))
    ∧ runClientStatusCheck ⟨200, lit "ok"⟩ = Except.ok ⟨200, lit "ok"⟩ := by
  exact ⟨(runClient_status_check ⟨404, lit "not found"⟩).1 (by decide),
    (runClient_status_check ⟨200, lit "ok"⟩).2 rfl⟩

/-! ## Response value extraction (program.go facade methods)

The response envelope's `Value` field has Go type `any`: after
`encoding/json` decoding it is `nil`, a `string`, a `float64` (integral in
every modelled call) or a `bool`.  A Go single-form type assertion
`res.Value.(T)` panics when the dynamic type is not `T`. -/

/-- The dynamic value held in a response envelope's `value` field: embeds
the `Value any` field of `dto.BrowserMessageOut` (src/unnamed/part_000,
package dto) as `encoding/json` populates it — a string, a number or a
boolean; `num` carries the integral numbers every modelled call site
consumes (the spec describes the field the same way in §3/§6). -/
inductive JVal where
  | num (n : Int)
  | str (s : List Char)
  | bool (b : Bool)
deriving DecidableEq

/-- A Go runtime panic raised by a failed single-form type assertion. -/
inductive GoPanic where
  | interfaceConversion
deriving DecidableEq

/-- Embeds the Go expression `res.Value.(string)`: the string on success,
a panic for `nil` or any other dynamic type. -/
def assertString (v : Option JVal) : Except GoPanic (List Char) :=
  match v with
  | some (JVal.str s) => Except.ok s
  | _ => Except.error GoPanic.interfaceConversion

/-- Embeds the Go expression `res.Value.(float64)` (followed by `int(...)` at
the call sites): the number on success, a panic otherwise. -/
def assertNumber (v : Option JVal) : Except GoPanic Int :=
  match v with
  | some (JVal.num n) => Except.ok n
  | _ => Except.error GoPanic.interfaceConversion

/-- Embeds the Go expression `res.Value.(bool)`: the boolean on success, a
panic otherwise. -/
def assertBool (v : Option JVal) : Except GoPanic Bool :=
  match v with
  | some (JVal.bool b) => Except.ok b
  | _ => Except.error GoPanic.interfaceConversion

/-- Result extraction of `Text` (program.go line 543): `res.Value.(string)`,
an unchecked assertion. -/
def textExtract : Option JVal → Except GoPanic (List Char) := assertString

/-- Result extraction of `GetInnerText` (program.go line 331):
`res.Value.(string)`, an unchecked assertion. -/
def getInnerTextExtract : Option JVal → Except GoPanic (List Char) := assertString

/-- Result extraction of `GetURL` (program.go line 723): `res.Value.(string)`,
an unchecked assertion. -/
def getURLExtract : Option JVal → Except GoPanic (List Char) := assertString

/-- Result extraction of `CountElements` (program.go line 396):
`int(res.Value.(float64))`, an unchecked assertion. -/
def countElementsExtract : Option JVal → Except GoPanic Int := assertNumber

/-- Result extraction of `IsElementPresent` (program.go line 406):
`res.Value.(bool)`, an unchecked assertion. -/
def isElementPresentExtract : Option JVal → Except GoPanic Bool := assertBool

/-- The decode error built by `NavigateStatus`:
`errors.Errorf("Failed to convert status code to int %v", res.Value)`. -/
inductive DecodeErr where
  | statusNotNumber (v : Option JVal)
deriving DecidableEq

/-- Result extraction of `NavigateStatus` (program.go lines 639-643): the
comma-ok assertion `status, ok := res.Value.(float64)` never panics; on a
wrong dynamic type it returns a decode error to the caller. -/
def navigateStatusExtract (v : Option JVal) : Except GoPanic (Except DecodeErr Int) :=
  Except.ok
    (match v with
     | some (JVal.num n) => Except.ok n
     | _ => Except.error (DecodeErr.statusNotNumber v))

/-- Claim C4 counterexample: `Text` does not return a decode error on a
wrong-typed `Value` — its unchecked assertion `res.Value.(string)` panics
when the value is the number 1. -/
theorem c4_counterexample :
    textExtract (some (JVal.num 1)) = Except.error GoPanic.interfaceConversion := rfl

/-- Claim C4 amended: only `NavigateStatus` extracts its typed result with a
checked (comma-ok) assertion, returning a decode error and never panicking on
an absent or wrong-typed `Value`; the other result-extracting facade methods
(`Text`, `GetInnerText`, `GetURL`, `CountElements`, `IsElementPresent`, and
their like) use unchecked type assertions and panic whenever `Value` is
absent or of an unexpected dynamic type. -/
theorem value_extraction_behavior :
    (∀ v : Option JVal, (∀ n, v ≠ some (JVal.num n)) →
      navigateStatusExtract v = Except.ok (Except.error (DecodeErr.statusNotNumber v)))
    ∧ (∀ n : Int, navigateStatusExtract (some (JVal.num n)) = Except.ok (Except.ok n))
    ∧ (∀ v : Option JVal, (∀ s, v ≠ some (JVal.str s)) →
      textExtract v = Except.error GoPanic.interfaceConversion)
    ∧ (∀ v : Option JVal, (∀ s, v ≠ some (JVal.str s)) →
      getInnerTextExtract v = Except.error GoPanic.interfaceConversion)
    ∧ (∀ v : Option JVal, (∀ s, v ≠ some (JVal.str s)) →
      getURLExtract v = Except.error GoPanic.interfaceConversion)
    ∧ (∀ v : Option JVal, (∀ n, v ≠ some (JVal.num n)) →
      countElementsExtract v = Except.error GoPanic.interfaceConversion)
    ∧ (∀ v : Option JVal, (∀ b, v ≠ some (JVal.bool b)) →
      isElementPresentExtract v = Except.error GoPanic.interfaceConversion) := by
  refine ⟨?_, fun n => rfl, ?_, ?_, ?_, ?_, ?_⟩ <;>
    intro v h <;>
    match v with
    | none => rfl
    | some (JVal.num n) => first | exact absurd rfl (h n) | rfl
    | some (JVal.str s) => first | exact absurd rfl (h s) | rfl
    | some (JVal.bool b) => first | exact absurd rfl (h b) | rfl

/-- Claim C4 amended, witness at concrete inputs. -/
theorem value_extraction_behavior_witness :
    navigateStatusExtract none = Except.ok (Except.error (DecodeErr.statusNotNumber none))
    ∧ textExtract none = Except.error GoPanic.interfaceConversion := by
  exact ⟨value_extraction_behavior.1 none (by intro n; simp),
    value_extraction_behavior.2.2.1 none (by intro s; simp)⟩

/-! ## Session construction (program.go, NewProgram)

`NewProgram` (program.go lines 178-230) spawns a background task that calls
`RunAsync` and then busy-waits: each iteration of the `for p.sessionID == ""`
loop first checks the session identifier, then polls `ctx.Done()` and sleeps.
The loop is embedded as a step-indexed function over the sequence of states
the caller observes at each poll; the fuel argument bounds the number of
polls, so a `some` result is a return within a bounded number of polls. -/

/-- The shared state visible to one iteration of the ready-barrier loop:
the current `p.sessionID` and whether `ctx.Done()` is closed. -/
structure SessionPoll where
  sessionID : List Char
  ctxDone : Bool

/-- The value `NewProgram` hands back to the caller: `canceled` is the
`return nil, ctx.Err()` path (no program, the context's cancellation error);
`ready sid` is the `return p, nil` path with `p.sessionID = sid`. -/
inductive NewProgramReturn where
  | canceled
  | ready (sessionID : List Char)
deriving DecidableEq

/-- Embeds the ready-barrier loop of `NewProgram` (program.go lines 218-226)
over the observation sequence `obs`, polling from index `i` with the given
fuel: while the session identifier is empty, a closed `ctx.Done()` returns
`nil, ctx.Err()`; otherwise the loop sleeps and polls again.  `none` means
the fuel ran out with the loop still running. -/
def readyLoop (obs : Nat → SessionPoll) : Nat → Nat → Option NewProgramReturn
  | 0, _ => none
  | fuel + 1, i =>
    if (obs i).sessionID ≠ [] then some (NewProgramReturn.ready (obs i).sessionID)
    else if (obs i).ctxDone then some NewProgramReturn.canceled
    else readyLoop obs fuel (i + 1)

/-- Helper for claim C7: once the context is done and the session identifier
stays empty, the loop returns the cancellation result at the first poll at or
after the cancellation index. -/
theorem readyLoop_canceled (obs : Nat → SessionPoll) (k : Nat)
    (hsid : ∀ i, (obs i).sessionID = [])
    (hdone : ∀ i, k ≤ i → (obs i).ctxDone = true) :
    ∀ fuel j, k ≤ j + fuel → readyLoop obs (fuel + 1) j = some NewProgramReturn.canceled := by
  intro fuel
  induction fuel with
  | zero =>
    intro j h
    simp [readyLoop, hsid j, hdone j (by omega)]
  | succ f ih =>
    intro j h
    by_cases hk : k ≤ j
    · simp [readyLoop, hsid j, hdone j hk]
    · by_cases hd : (obs j).ctxDone
      · simp [readyLoop, hsid j, hd]
      · have h2 := ih (j + 1) (by omega)
        simpa [readyLoop, hsid j, hd] using h2

/-- Claim C7: if the context is canceled (index `k` and later) before a
session identifier is ever assigned, the ready barrier of `NewProgram`
returns within `k + 1` polls with the `nil, ctx.Err()` result — a
cancellation error and no program — and in particular never a usable
`Program`. -/
theorem newProgram_canceled_before_session (obs : Nat → SessionPoll) (k : Nat)
    (hsid : ∀ i, (obs i).sessionID = [])
    (hdone : ∀ i, k ≤ i → (obs i).ctxDone = true) :
    readyLoop obs (k + 1) 0 = some NewProgramReturn.canceled := by
  exact readyLoop_canceled obs k hsid hdone k 0 (by omega)

/-- Claim C7, witness: a context already canceled at the first poll. -/
theorem newProgram_canceled_before_session_witness :
    readyLoop (fun _ => ⟨[], true⟩) 1 0 = some NewProgramReturn.canceled := by
  exact newProgram_canceled_before_session (fun _ => ⟨[], true⟩) 0
    (fun i => rfl) (fun i _ => rfl)

/-! ## Background start task failure (program.go, NewProgram and exitWithError) -/

/-- The fields of the `program` struct touched by the background start task
(program.go lines 232-242): the stored error, the session identifier and
whether the shared context has been canceled. -/
structure ProgState where
  err : Option (List Char)
  sessionID : List Char
  canceled : Bool
deriving DecidableEq

/-- The `program` value as `NewProgram` builds it before spawning the
background task: no error, no session identifier, context live. -/
def initProgState : ProgState := ⟨none, [], false⟩

/-- Embeds `(*program).exitWithError` (program.go lines 248-253): stores the
failure in `p.err` and cancels the shared context. -/
def exitWithError (e : List Char) (p : ProgState) : ProgState :=
  ⟨some e, p.sessionID, true⟩

/-- How the background `RunAsync` call of `NewProgram` ends.  `transportErr`
is a non-nil error from `RunAsync`; `startEnvelopeErr` is a start envelope
whose `Error` field is non-empty; `started` is a successful start assigning
the session identifier. -/
inductive StartOutcome where
  | transportErr (e : List Char)
  | startEnvelopeErr (msg : List Char)
  | started (sid : List Char)

/-- Embeds the background goroutine body of `NewProgram` (program.go lines
194-215): a failed start is stored via `exitWithError` (which cancels the
context); a successful start assigns `p.sessionID`. -/
def startTask (r : StartOutcome) (p : ProgState) : ProgState :=
  match r with
  | StartOutcome.transportErr e => exitWithError e p
  | StartOutcome.startEnvelopeErr m => exitWithError m p
  | StartOutcome.started sid => ⟨p.err, sid, p.canceled⟩

/-- The caller-visible result of `NewProgram` once the background start task
has finished before any successful poll: the ready barrier observes the
state the task left behind. -/
def newProgramAfterStart (r : StartOutcome) : Option NewProgramReturn :=
  let p := startTask r initProgState
  readyLoop (fun _ => ⟨p.sessionID, p.canceled⟩) 1 0

/-- Claim C10: when the background start task fails before a session
identifier is assigned — a transport error or a start envelope with a
non-empty `Error` field — it stores the failure in `p.err` and cancels the
shared context, and `NewProgram` then returns the context's cancellation
error (`NewProgramReturn.canceled`, which carries no start-error payload and
no program), so the stored start failure is unreachable through
`NewProgram`'s results. -/
theorem start_failure_unreachable (e : List Char) :
    (startTask (StartOutcome.transportErr e) initProgState).err = some e
    ∧ (startTask (StartOutcome.transportErr e) initProgState).canceled = true
    ∧ newProgramAfterStart (StartOutcome.transportErr e) = some NewProgramReturn.canceled
    ∧ (startTask (StartOutcome.startEnvelopeErr e) initProgState).err = some e
    ∧ (startTask (StartOutcome.startEnvelopeErr e) initProgState).canceled = true
    ∧ newProgramAfterStart (StartOutcome.startEnvelopeErr e) = some NewProgramReturn.canceled
    ∧ (∀ sid, NewProgramReturn.canceled ≠ NewProgramReturn.ready sid) := by
  refine ⟨rfl, rfl, rfl, rfl, rfl, rfl, fun sid h => NewProgramReturn.noConfusion h⟩

/-! ## Defensive response fix-up (baas.go, Message, lines 89-100)

`Message` scans the raw response body for the byte sequence `\x7d \n \x7b`
(closing brace, newline, opening brace); if present it replaces the first
occurrence with brace-comma-newline-brace (`strings.Replace(..., 1)`), then
wraps the whole body in square brackets and unmarshals it as an array. -/

/-- Whether the input starts with the malformed boundary
brace-newline-brace. -/
def isBoundary (s : List Char) : Bool :=
  decide (s.take 3 = ['\x7d', '\n', '\x7b'])

/-- Embeds `strings.Contains(body, boundary)`. -/
def containsBoundary : List Char → Bool
  | [] => false
  | c :: rest => isBoundary (c :: rest) || containsBoundary rest

/-- Embeds `strings.Replace(body, boundary, fixed, 1)`: rewrites the first
occurrence of brace-newline-brace to brace-comma-newline-brace and leaves
everything after it unchanged. -/
def replaceFirstBoundary : List Char → List Char
  | [] => []
  | c :: rest =>
    if isBoundary (c :: rest) then '\x7d' :: ',' :: '\n' :: (c :: rest).drop 2
    else c :: replaceFirstBoundary rest

/-- Embeds the fix-up step of `Message` (baas.go lines 92-94): the body is
rewritten only when it contains the boundary. -/
def messageFixup (s : List Char) : List Char :=
  if containsBoundary s then replaceFirstBoundary s else s

/-- Embeds baas.go line 95: `respBytes = []byte("[" + string(respBytes) + "]")`
applied after the fix-up. -/
def wrapBody (s : List Char) : List Char :=
  '[' :: (messageFixup s ++ [']'])

/-- A body of the shape `A ++ boundary ++ B` contains the boundary. -/
theorem containsBoundary_junction :
    ∀ (A B : List Char), containsBoundary (A ++ '\x7d' :: '\n' :: '\x7b' :: B) = true
  | [], B => by simp [containsBoundary, isBoundary]
  | a :: A', B => by
    simp [containsBoundary, containsBoundary_junction A' B]

/-- If no boundary occurrence starts inside `A`, the first-occurrence
replacement rewrites exactly the junction occurrence and leaves `B`
untouched. -/
theorem replaceFirstBoundary_junction :
    ∀ (A B : List Char),
      (∀ i, i < A.length → isBoundary ((A ++ '\x7d' :: '\n' :: '\x7b' :: B).drop i) = false) →
      replaceFirstBoundary (A ++ '\x7d' :: '\n' :: '\x7b' :: B)
        = A ++ '\x7d' :: ',' :: '\n' :: '\x7b' :: B
  | [], B, _ => by simp [replaceFirstBoundary, isBoundary]
  | a :: A', B, h => by
    have h0 := h 0 (by simp)
    simp only [List.cons_append, List.drop_zero] at h0
    have ih := replaceFirstBoundary_junction A' B
      (fun i hi => by simpa using h (i + 1) (by simpa using Nat.succ_lt_succ hi))
    simp [replaceFirstBoundary, h0, ih]

/-- Claim C5: for a body `A ++ boundary ++ B` whose first boundary occurrence
is the displayed one (none starts inside `A`) and where at least one more
occurrence follows (inside `B`), the fix-up inserts a comma after the first
occurrence only — `B`, which holds every later occurrence, is kept unchanged —
and the result is then wrapped in square brackets. -/
theorem messageFixup_first_occurrence_only (A B : List Char)
    (hfirst : ∀ i, i < A.length →
      isBoundary ((A ++ '\x7d' :: '\n' :: '\x7b' :: B).drop i) = false)
    (hsecond : containsBoundary B = true) :
    messageFixup (A ++ '\x7d' :: '\n' :: '\x7b' :: B)
      = A ++ '\x7d' :: ',' :: '\n' :: '\x7b' :: B
    ∧ wrapBody (A ++ '\x7d' :: '\n' :: '\x7b' :: B)
      = '[' :: ((A ++ '\x7d' :: ',' :: '\n' :: '\x7b' :: B) ++ [']']) := by
  have hc := containsBoundary_junction A B
  have hr := replaceFirstBoundary_junction A B hfirst
  constructor
  · rw [messageFixup, if_pos hc, hr]
  · rw [wrapBody, messageFixup, if_pos hc, hr]

/-- Claim C5, witness: a body with two boundary occurrences; only the first
is rewritten. -/
theorem messageFixup_first_occurrence_only_witness :
    messageFixup ([] ++ '\x7d' :: '\n' :: '\x7b' :: lit "x\x7d\n\x7by")
      = [] ++ '\x7d' :: ',' :: '\n' :: '\x7b' :: lit "x\x7d\n\x7by"
    ∧ wrapBody ([] ++ '\x7d' :: '\n' :: '\x7b' :: lit "x\x7d\n\x7by")
      = '[' :: (([] ++ '\x7d' :: ',' :: '\n' :: '\x7b' :: lit "x\x7d\n\x7by") ++ [']']) := by
  exact messageFixup_first_occurrence_only [] (lit "x\x7d\n\x7by")
    (fun i hi => absurd hi (by simp)) (by decide)

/-! ## Envelope unmarshalling and correlation (baas.go, Message, lines 89-112)

`Message` unmarshals the bracket-wrapped body into `[]dto.BrowserMessageOut`,
selects the envelope whose echoed `RequestID` equals the one just sent, and
checks the envelope's metadata error.  The envelope struct lives in
src/unnamed/part_000 (package dto) and is embedded below; only its `Meta`
field's type, `service.ResultMeta`, comes from the external
go-aws-lambda-sdk module and is therefore modelled from the spec. -/

/-- Modelled from the spec: `service.ResultMeta`, the type of
`dto.BrowserMessageOut.Meta`, defined in the external go-aws-lambda-sdk
module and missing from this repository.  The spec (§6) describes the block
as `meta(error, usedProxy, jobUID)`, and baas.go lines 109-110 read its
`Error` (a `*string`, whose nil is read back as the empty string by
`lo.FromPtr`, embedded as `none`) and `RequestUID` fields; the two read
fields are embedded. -/
structure BaasMetaOut where
  error : Option (List Char)
  requestUID : List Char
deriving DecidableEq

/-- Embeds `dto.BrowserMessageOut` (src/unnamed/part_000, package dto),
field for field in declaration order: `Timestamp`, `SessionID`, `RequestID`,
`Meta service.ResultMeta`, `Error`, `Value any` (as `Option JVal`, `none`
for nil), `Screenshots map[string][]byte` (as an association list of byte
lists), `Log []string`, `DownloadedFile []byte` (bytes as naturals),
`DownloadedFileName`, `OutHTML`. -/
structure BrowserMessageOut where
  timestamp : List Char
  sessionID : List Char
  requestID : List Char
  meta : BaasMetaOut
  error : List Char
  value : Option JVal
  screenshots : List (List Char × List Nat)
  log : List (List Char)
  downloadedFile : List Nat
  downloadedFileName : List Char
  outHTML : List Char
deriving DecidableEq

/-- True of the JSON whitespace characters tolerated between array tokens. -/
def isWs (c : Char) : Bool := c = ' ' || c = '\t' || c = '\n' || c = '\r'

/-- Skips JSON whitespace. -/
def skipWs (s : List Char) : List Char := s.dropWhile isWs

/-- Consumes an expected literal prefix, returning the rest of the input. -/
def dropLit : List Char → List Char → Option (List Char)
  | [], s => some s
  | _ :: _, [] => none
  | c :: l, d :: s => if d = c then dropLit l s else none

/-- Consumes the body of a JSON string after its opening quote, up to and
including the closing quote (escape-free strings, the family quantified
over). -/
def takeStr : List Char → Option (List Char × List Char)
  | [] => none
  | c :: rest =>
    if c = '"' then some ([], rest)
    else
      match takeStr rest with
      | some p => some (c :: p.1, p.2)
      | none => none

/-- Splits the longest leading run of decimal digits from the input. -/
def takeDigits : List Char → List Char × List Char
  | [] => ([], [])
  | c :: rest =>
    if c.isDigit then
      let p := takeDigits rest
      (c :: p.1, p.2)
    else ([], c :: rest)

/-- Numeric value of a decimal digit character. -/
def digitVal (c : Char) : Nat := c.toNat - 48

/-- Value of a big-endian decimal digit string. -/
def digitsToNat (ds : List Char) : Nat :=
  ds.foldl (fun a c => a * 10 + digitVal c) 0

/-- Parses a nonempty run of digits into a natural number. -/
def parseNumCore (s : List Char) : Option (Nat × List Char) :=
  let p := takeDigits s
  if p.1 = [] then none else some (digitsToNat p.1, p.2)

/-- Parses a JSON integer (optional leading minus sign). -/
def parseNum : List Char → Option (Int × List Char)
  | [] => none
  | c :: rest =>
    if c = '-' then (parseNumCore rest).map (fun p => (-(p.1 : Int), p.2))
    else (parseNumCore (c :: rest)).map (fun p => ((p.1 : Int), p.2))

/-- Parses a scalar JSON value of the envelope's `value` field: a string, a
boolean literal, or an integer. -/
def parseJVal : List Char → Option (JVal × List Char)
  | [] => none
  | c :: rest =>
    if c = '"' then (takeStr rest).map (fun p => (JVal.str p.1, p.2))
    else if c = 't' then (dropLit (lit "rue") rest).map (fun r => (JVal.bool true, r))
    else if c = 'f' then (dropLit (lit "alse") rest).map (fun r => (JVal.bool false, r))
    else (parseNum (c :: rest)).map (fun p => (JVal.num p.1, p.2))

/-- The decoded envelope carrying a request identifier and a value; every
field absent from the wire takes its zero value, as `encoding/json` does. -/
def envOf (id : List Char) (v : JVal) : BrowserMessageOut :=
  ⟨[], [], id, ⟨none, []⟩, [], some v, [], [], [], [], []⟩

/-- Embeds the `encoding/json` (Go standard library) decoding of one
response envelope into `dto.BrowserMessageOut`, restricted to the
newline-delimited wire form of §6/§8 —
`\x7b"requestID":"<id>","value":<scalar>\x7d`, the field names being the
struct's json tags (src/unnamed/part_000); absent fields decode to their
zero values. -/
def parseEnvelope (s : List Char) : Option (BrowserMessageOut × List Char) :=
  match dropLit (lit "\x7b\"requestID\":\"") s with
  | none => none
  | some r1 =>
    match takeStr r1 with
    | none => none
    | some (id, r2) =>
      match dropLit (lit ",\"value\":") r2 with
      | none => none
      | some r3 =>
        match parseJVal r3 with
        | none => none
        | some (v, r4) =>
          match r4 with
          | '\x7d' :: r5 => some (envOf id v, r5)
          | _ => none

/-- The element loop of `encoding/json` (Go standard library) array
decoding — after each envelope, whitespace then either `]` (end, nothing but
whitespace may follow) or `,` and the next envelope.  The fuel bounds the
number of elements; callers pass at least the input length. -/
def parseEnvsAux : Nat → List Char → List BrowserMessageOut → Option (List BrowserMessageOut)
  | 0, _, _ => none
  | fuel + 1, s, acc =>
    match parseEnvelope s with
    | none => none
    | some (e, rest) =>
      match skipWs rest with
      | ']' :: r => if skipWs r = [] then some (acc ++ [e]) else none
      | ',' :: r => parseEnvsAux fuel (skipWs r) (acc ++ [e])
      | _ => none

/-- Embeds `json.Unmarshal(respBytes, &baasResponseObjects)` (baas.go line
97, Go standard library `encoding/json`) with `[]dto.BrowserMessageOut`
target, restricted to the envelope wire form: a bracketed, comma-separated,
whitespace-tolerant array of envelopes. -/
def unmarshalEnvs (s : List Char) : Option (List BrowserMessageOut) :=
  match skipWs s with
  | '[' :: r =>
    match skipWs r with
    | ']' :: r2 => if skipWs r2 = [] then some [] else none
    | r2 => parseEnvsAux (r2.length + 1) r2 []
  | _ => none

/-- Embeds `lo.FromPtr(resp.Meta.Error)`: nil reads as the empty string. -/
def metaErrStr (m : BrowserMessageOut) : List Char := m.meta.error.getD []

/-- Embeds `lo.Find(baasResponseObjects, ...)` (baas.go lines 102-104): the
first envelope whose echoed `RequestID` equals the sent one. -/
def findMessage (reqID : List Char) (objs : List BrowserMessageOut) : Option BrowserMessageOut :=
  objs.find? (fun m => reqID == m.requestID)

/-- The failures of the `Message` operation after a successful transport
round trip (baas.go lines 97-111), carrying the data interpolated into the
corresponding `errors.Errorf`/`errors.Wrapf` format strings. -/
inductive MsgErr where
  | unmarshalErr (body : List Char)
  | correlation (requestID : List Char)
  | remote (errMsg : List Char) (requestUID : List Char)
deriving DecidableEq

/-- The error text of each `Message` failure, following the source format
strings (`%q` renders its argument in double quotes; the quantified
identifiers are escape-free). -/
def msgErrText : MsgErr → List Char
  | MsgErr.unmarshalErr body => lit "failed to unmarshal baas response: " ++ body
  | MsgErr.correlation id =>
    lit "failed to find message with the same RequestID: \"" ++ id ++ ['"']
  | MsgErr.remote m uid =>
    lit "baas returned error: " ++ m ++ lit ", baas RequestUID: \"" ++ uid ++ ['"']

/-- Embeds the correlation and metadata-error steps of `Message`
(baas.go lines 102-112) on the decoded envelope list. -/
def messageCorrelate (reqID : List Char) (objs : List BrowserMessageOut) :
    Except MsgErr BrowserMessageOut :=
  match findMessage reqID objs with
  | none => Except.error (MsgErr.correlation reqID)
  | some resp =>
    if metaErrStr resp ≠ [] then
      Except.error (MsgErr.remote (metaErrStr resp) resp.meta.requestUID)
    else Except.ok resp

/-- Embeds the whole post-transport pipeline of `Message` (baas.go lines
89-112): fix up and wrap the raw body, unmarshal it as an envelope array,
correlate by request identifier, and check the metadata error. -/
def messageParse (reqID : List Char) (body : List Char) : Except MsgErr BrowserMessageOut :=
  match unmarshalEnvs (wrapBody body) with
  | none => Except.error (MsgErr.unmarshalErr (wrapBody body))
  | some objs => messageCorrelate reqID objs

/-! ## Canonical envelope rendering (the claim C1 input family) -/

/-- Renders a scalar value in the JSON form the wire carries. -/
def renderJVal : JVal → List Char
  | JVal.num n => renderInt n
  | JVal.str s => '"' :: (s ++ ['"'])
  | JVal.bool true => lit "true"
  | JVal.bool false => lit "false"

/-- The field list of a rendered envelope, between the braces. -/
def renderEnvelopeMid (id : List Char) (v : JVal) : List Char :=
  lit "\"requestID\":\"" ++ id ++ lit "\",\"value\":" ++ renderJVal v

/-- A response envelope in the newline-delimited wire form of §6/§8:
`\x7b"requestID":"<id>","value":<scalar>\x7d`. -/
def renderEnvelope (id : List Char) (v : JVal) : List Char :=
  '\x7b' :: (renderEnvelopeMid id v ++ ['\x7d'])

/-- Characters allowed in the quantified identifiers and string values: no
double quote, no backslash, no control characters — exactly the strings whose
JSON encoding is the identity, so the restricted decoder agrees with
`encoding/json` on them. -/
def safeChars (cs : List Char) : Prop :=
  ∀ c ∈ cs, c ≠ '"' ∧ c ≠ '\\' ∧ 32 ≤ c.toNat

/-- A scalar value whose rendering is escape-free. -/
def safeJVal : JVal → Prop
  | JVal.str s => safeChars s
  | _ => True

instance (cs : List Char) : Decidable (safeChars cs) := by
  unfold safeChars
  infer_instance

/-! ## Round-trip lemmas: the decoder inverts the wire rendering -/

/-- Consuming a literal prefix succeeds on exactly that prefix. -/
theorem dropLit_append : ∀ (l s : List Char), dropLit l (l ++ s) = some s
  | [], s => rfl
  | c :: l, s => by simp [dropLit, dropLit_append l s]

/-- Reading a string body stops at the first quote. -/
theorem takeStr_append : ∀ (cs rest : List Char), (∀ c ∈ cs, c ≠ '"') →
    takeStr (cs ++ '"' :: rest) = some (cs, rest)
  | [], rest, _ => by simp [takeStr]
  | c :: cs, rest, h => by
    have hc : c ≠ '"' := (h c (by simp))
    simp [takeStr, hc, takeStr_append cs rest (fun d hd => h d (by simp [hd]))]

/-- Every digit character rendered by `digitChar` is a digit. -/
theorem digitChar_isDigit (d : Nat) : (digitChar d).isDigit = true := by
  obtain ⟨m, hlt, he⟩ : ∃ m, m < 10 ∧ d % 10 = m := ⟨d % 10, Nat.mod_lt d (by omega), rfl⟩
  unfold digitChar
  rw [he]
  interval_cases m <;> decide

/-- `digitVal` inverts `digitChar` below ten. -/
theorem digitVal_digitChar (d : Nat) (h : d < 10) : digitVal (digitChar d) = d := by
  unfold digitChar
  rw [Nat.mod_eq_of_lt h]
  interval_cases d <;> decide

/-- A digit character is distinct from any non-digit character. -/
theorem ne_of_isDigit (c x : Char) (hx : x.isDigit = false) (h : c.isDigit = true) :
    c ≠ x := by
  intro e
  rw [e, hx] at h
  cases h

/-- Appending a digit to a digit string multiplies its value by ten. -/
theorem digitsToNat_append_digit (xs : List Char) (c : Char) :
    digitsToNat (xs ++ [c]) = digitsToNat xs * 10 + digitVal c := by
  simp [digitsToNat, List.foldl_append]

/-- The decimal rendering of `n` consists of digits, is nonempty, and reads
back as `n`. -/
theorem natCharsAux_spec : ∀ (fuel n : Nat), n < fuel →
    (∀ c ∈ natCharsAux fuel n, c.isDigit = true)
    ∧ natCharsAux fuel n ≠ []
    ∧ digitsToNat (natCharsAux fuel n) = n := by
  intro fuel
  induction fuel with
  | zero => intro n h; omega
  | succ f ih =>
    intro n h
    by_cases h10 : n < 10
    · refine ⟨?_, ?_, ?_⟩
      · intro c hc
        simp [natCharsAux, h10] at hc
        simp [hc, digitChar_isDigit]
      · simp [natCharsAux, h10]
      · simp [natCharsAux, h10, digitsToNat, digitVal_digitChar n h10]
    · have hdiv : n / 10 < f := by
        have := Nat.div_lt_self (by omega : 0 < n) (by omega : 1 < 10)
        omega
      have ih2 := ih (n / 10) hdiv
      refine ⟨?_, ?_, ?_⟩
      · intro c hc
        simp [natCharsAux, h10] at hc
        rcases hc with hc | hc
        · exact ih2.1 c hc
        · simp [hc, digitChar_isDigit]
      · simp [natCharsAux, h10]
      · rw [natCharsAux]
        rw [if_neg h10]
        rw [digitsToNat_append_digit, ih2.2.2, digitVal_digitChar (n % 10) (by omega)]
        omega

/-- `natChars` specification at its chosen fuel. -/
theorem natChars_spec (n : Nat) :
    (∀ c ∈ natChars n, c.isDigit = true)
    ∧ natChars n ≠ []
    ∧ digitsToNat (natChars n) = n :=
  natCharsAux_spec (n + 1) n (by omega)

/-- The input after a rendered number must not begin with a digit. -/
def headNotDigit (s : List Char) : Prop :=
  match s with
  | [] => True
  | c :: _ => c.isDigit = false

/-- The digit scanner consumes exactly a digit prefix when the rest starts
with a non-digit. -/
theorem takeDigits_append : ∀ (ds rest : List Char), (∀ c ∈ ds, c.isDigit = true) →
    headNotDigit rest → takeDigits (ds ++ rest) = (ds, rest)
  | [], [], _, _ => rfl
  | [], c :: r, _, hrest => by
    simp [takeDigits, show c.isDigit = false from hrest]
  | d :: ds, rest, h, hrest => by
    have hd : d.isDigit = true := h d (by simp)
    simp [takeDigits, hd, takeDigits_append ds rest (fun c hc => h c (by simp [hc])) hrest]

/-- Parsing inverts integer rendering when the rest starts with a
non-digit. -/
theorem parseNum_renderInt (n : Int) (rest : List Char) (h : headNotDigit rest) :
    parseNum (renderInt n ++ rest) = some (n, rest) := by
  have hspec := natChars_spec n.natAbs
  obtain ⟨d, t, hdt⟩ : ∃ d t, natChars n.natAbs = d :: t := by
    cases he : natChars n.natAbs with
    | nil => exact absurd he hspec.2.1
    | cons d t => exact ⟨d, t, rfl⟩
  have htd : takeDigits (natChars n.natAbs ++ rest) = (natChars n.natAbs, rest) :=
    takeDigits_append (natChars n.natAbs) rest hspec.1 h
  have hdd : d.isDigit = true := hspec.1 d (by simp [hdt])
  have hne : natChars n.natAbs ≠ [] := hspec.2.1
  by_cases hneg : n < 0
  · have he1 : renderInt n ++ rest = '-' :: (natChars n.natAbs ++ rest) := by
      simp [renderInt, hneg]
    rw [he1, parseNum, if_pos rfl, parseNumCore, htd]
    simp only [hne, if_neg, Option.map_some]
    simp [hspec.2.2]
    rw [abs_of_neg hneg]
    ring
  · have he1 : renderInt n ++ rest = d :: (t ++ rest) := by
      simp [renderInt, hneg, hdt]
    rw [he1, parseNum]
    rw [if_neg (ne_of_isDigit d '-' (by decide) hdd)]
    have he2 : d :: (t ++ rest) = natChars n.natAbs ++ rest := by simp [hdt]
    rw [he2, parseNumCore, htd]
    simp only [hne, if_neg, Option.map_some]
    simp [hspec.2.2]
    omega

/-- The first character of a rendered integer is a minus sign or a digit —
never a quote or a boolean-literal head. -/
theorem renderInt_head (n : Int) :
    ∃ c t, renderInt n = c :: t ∧ c ≠ '"' ∧ c ≠ 't' ∧ c ≠ 'f' := by
  have hspec := natChars_spec n.natAbs
  obtain ⟨d, t, hdt⟩ : ∃ d t, natChars n.natAbs = d :: t := by
    cases he : natChars n.natAbs with
    | nil => exact absurd he hspec.2.1
    | cons d t => exact ⟨d, t, rfl⟩
  have hdd : d.isDigit = true := hspec.1 d (by simp [hdt])
  by_cases hneg : n < 0
  · exact ⟨'-', natChars n.natAbs, by simp [renderInt, hneg], by decide, by decide, by decide⟩
  · exact ⟨d, t, by simp [renderInt, hneg, hdt],
      ne_of_isDigit d '"' (by decide) hdd,
      ne_of_isDigit d 't' (by decide) hdd,
      ne_of_isDigit d 'f' (by decide) hdd⟩

/-- Parsing inverts scalar-value rendering. -/
theorem parseJVal_render (v : JVal) (rest : List Char) (hv : safeJVal v)
    (h : headNotDigit rest) :
    parseJVal (renderJVal v ++ rest) = some (v, rest) := by
  match v with
  | JVal.str s =>
    have hq : ∀ c ∈ s, c ≠ '"' := fun c hc => (hv c hc).1
    have he1 : renderJVal (JVal.str s) ++ rest = '"' :: (s ++ '"' :: rest) := by
      simp [renderJVal]
    rw [he1]
    simp [parseJVal, takeStr_append s rest hq]
  | JVal.bool true =>
    have hlit : lit "true" = 't' :: lit "rue" := by decide
    have he1 : renderJVal (JVal.bool true) ++ rest = 't' :: (lit "rue" ++ rest) := by
      simp [renderJVal, hlit]
    rw [he1]
    simp [parseJVal, dropLit_append]
  | JVal.bool false =>
    have hlit : lit "false" = 'f' :: lit "alse" := by decide
    have he1 : renderJVal (JVal.bool false) ++ rest = 'f' :: (lit "alse" ++ rest) := by
      simp [renderJVal, hlit]
    rw [he1]
    simp [parseJVal, dropLit_append]
  | JVal.num n =>
    obtain ⟨c, t, hct, h1, h2, h3⟩ := renderInt_head n
    have hp := parseNum_renderInt n rest h
    rw [hct] at hp
    simp only [List.cons_append] at hp
    have he1 : renderJVal (JVal.num n) ++ rest = c :: (t ++ rest) := by
      simp [renderJVal, hct]
    rw [he1]
    simp [parseJVal, h1, h2, h3, hp]

/-- Parsing inverts envelope rendering: the decoder consumes exactly the
rendered envelope and returns the decoded envelope with zero-valued
unrendered fields. -/
theorem parseEnvelope_render (id : List Char) (v : JVal) (rest : List Char)
    (hid : safeChars id) (hv : safeJVal v) :
    parseEnvelope (renderEnvelope id v ++ rest) = some (envOf id v, rest) := by
  have hidq : ∀ c ∈ id, c ≠ '"' := fun c hc => (hid c hc).1
  have hL1 : lit "\x7b\"requestID\":\"" = '\x7b' :: lit "\"requestID\":\"" := by decide
  have hL2 : lit "\",\"value\":" = '"' :: lit ",\"value\":" := by decide
  have he1 : renderEnvelope id v ++ rest
      = lit "\x7b\"requestID\":\""
        ++ (id ++ '"' :: (lit ",\"value\":" ++ (renderJVal v ++ '\x7d' :: rest))) := by
    rw [hL1]
    simp only [renderEnvelope, renderEnvelopeMid, hL2]
    simp
  have hstr := takeStr_append id (lit ",\"value\":" ++ (renderJVal v ++ '\x7d' :: rest)) hidq
  have hjv := parseJVal_render v ('\x7d' :: rest) hv
    (show ('\x7d').isDigit = false from by decide)
  rw [he1]
  simp only [parseEnvelope, dropLit_append, hstr, hjv]

/-- `skipWs` is inert on input whose head is not whitespace. -/
theorem skipWs_not_ws (c : Char) (l : List Char) (h : isWs c = false) :
    skipWs (c :: l) = c :: l := by
  simp [skipWs, List.dropWhile_cons, h]

/-- `skipWs` drops a leading newline. -/
theorem skipWs_newline (l : List Char) : skipWs ('\n' :: l) = skipWs l := by
  simp [skipWs, List.dropWhile_cons, isWs]

/-- The element loop reads exactly two rendered envelopes from the fixed-up,
bracket-wrapped two-envelope body, for every sufficient fuel. -/
theorem parseEnvsAux_two (id1 id2 : List Char) (v1 v2 : JVal)
    (hid1 : safeChars id1) (hid2 : safeChars id2)
    (hv1 : safeJVal v1) (hv2 : safeJVal v2) (acc : List BrowserMessageOut) :
    ∀ fuel, parseEnvsAux (fuel + 2)
        (renderEnvelope id1 v1 ++ ',' :: '\n' :: (renderEnvelope id2 v2 ++ [']'])) acc
      = some (acc ++ [envOf id1 v1, envOf id2 v2]) := by
  intro fuel
  have h1 := parseEnvelope_render id1 v1 (',' :: '\n' :: (renderEnvelope id2 v2 ++ [']'])) hid1 hv1
  have h2 := parseEnvelope_render id2 v2 [']'] hid2 hv2
  have hws1 : skipWs (',' :: '\n' :: (renderEnvelope id2 v2 ++ [']']))
      = ',' :: '\n' :: (renderEnvelope id2 v2 ++ [']']) := skipWs_not_ws ',' _ (by decide)
  have hws2 : skipWs ('\n' :: (renderEnvelope id2 v2 ++ [']']))
      = renderEnvelope id2 v2 ++ [']'] := by
    rw [skipWs_newline]
    have : renderEnvelope id2 v2 ++ [']']
        = '\x7b' :: (renderEnvelopeMid id2 v2 ++ ['\x7d'] ++ [']']) := by
      simp [renderEnvelope]
    rw [this]
    rw [skipWs_not_ws '\x7b' _ (by decide)]
  have hws3 : skipWs [']'] = [']'] := skipWs_not_ws ']' [] (by decide)
  simp only [parseEnvsAux, h1, hws1, hws2, h2, hws3]
  simp [skipWs]

/-- An integer rendering contains no newline. -/
theorem no_newline_renderInt (n : Int) : '\n' ∉ renderInt n := by
  intro hmem
  have hspec := natChars_spec n.natAbs
  unfold renderInt at hmem
  by_cases hneg : n < 0
  · rw [if_pos hneg] at hmem
    rcases List.mem_cons.mp hmem with h | h
    · exact absurd h (by decide)
    · exact absurd (hspec.1 '\n' h) (by decide)
  · rw [if_neg hneg] at hmem
    exact absurd (hspec.1 '\n' hmem) (by decide)

/-- A safe scalar value renders without a newline. -/
theorem no_newline_renderJVal (v : JVal) (hv : safeJVal v) : '\n' ∉ renderJVal v := by
  match v with
  | JVal.num n => exact no_newline_renderInt n
  | JVal.str s =>
    intro hmem
    simp [renderJVal] at hmem
    exact absurd (hv '\n' hmem).2.2 (by decide)
  | JVal.bool true => decide
  | JVal.bool false => decide

/-- The field list of a rendered envelope contains no newline when the
identifier and value are safe. -/
theorem no_newline_renderEnvelopeMid (id : List Char) (v : JVal)
    (hid : safeChars id) (hv : safeJVal v) : '\n' ∉ renderEnvelopeMid id v := by
  intro hmem
  simp [renderEnvelopeMid] at hmem
  rcases hmem with h | h | h | h
  · revert h; decide
  · exact absurd (hid '\n' h).2.2 (by decide)
  · revert h; decide
  · exact absurd h (no_newline_renderJVal v hv)

/-- No boundary occurrence starts inside a newline-free prefix `A` of
`A ++ brace-newline ++ rest`. -/
theorem isBoundary_drop_no_newline :
    ∀ (A rest : List Char), '\n' ∉ A →
      ∀ i, i < A.length → isBoundary ((A ++ '\x7d' :: '\n' :: rest).drop i) = false
  | [], _, _, i, hi => absurd hi (by simp)
  | a :: A', rest, h, 0, _ => by
    cases A' with
    | nil => simp [isBoundary]
    | cons b A'' =>
      have hb : b ≠ '\n' := fun e => h (by simp [e])
      simp [isBoundary]
      intro _
      exact fun e => absurd e hb
  | a :: A', rest, h, i + 1, hi => by
    have ih := isBoundary_drop_no_newline A' rest (fun e => h (by simp [e])) i (by simpa using hi)
    simpa using ih

/-- The bracket-wrapped, comma-fixed two-envelope body unmarshals to exactly
the two envelopes. -/
theorem unmarshalEnvs_two (id1 id2 : List Char) (v1 v2 : JVal)
    (hid1 : safeChars id1) (hid2 : safeChars id2)
    (hv1 : safeJVal v1) (hv2 : safeJVal v2) :
    unmarshalEnvs
        ('[' :: (renderEnvelope id1 v1 ++ ',' :: '\n' :: (renderEnvelope id2 v2 ++ [']'])))
      = some [envOf id1 v1, envOf id2 v2] := by
  have hback : '\x7b' ::
        (renderEnvelopeMid id1 v1 ++ '\x7d' :: ',' :: '\n' :: (renderEnvelope id2 v2 ++ [']']))
      = renderEnvelope id1 v1 ++ ',' :: '\n' :: (renderEnvelope id2 v2 ++ [']']) := by
    simp [renderEnvelope]
  have hskin : skipWs (renderEnvelope id1 v1 ++ ',' :: '\n' :: (renderEnvelope id2 v2 ++ [']']))
      = '\x7b' ::
        (renderEnvelopeMid id1 v1 ++ '\x7d' :: ',' :: '\n' :: (renderEnvelope id2 v2 ++ [']'])) := by
    rw [← hback]
    exact skipWs_not_ws '\x7b' _ (by decide)
  have hsk : skipWs
        ('[' :: (renderEnvelope id1 v1 ++ ',' :: '\n' :: (renderEnvelope id2 v2 ++ [']'])))
      = '[' :: (renderEnvelope id1 v1 ++ ',' :: '\n' :: (renderEnvelope id2 v2 ++ [']'])) :=
    skipWs_not_ws '[' _ (by decide)
  simp only [unmarshalEnvs, hsk]
  simp only [hskin]
  split
  · next r2 heq => simp at heq
  · next r2 heq =>
    rw [hback]
    obtain ⟨f, hf⟩ : ∃ f,
        (renderEnvelope id1 v1 ++ ',' :: '\n' :: (renderEnvelope id2 v2 ++ [']'])).length + 1
          = f + 2 :=
      ⟨(renderEnvelope id1 v1).length + (renderEnvelope id2 v2).length + 2, by simp; omega⟩
    rw [hf]
    exact parseEnvsAux_two id1 id2 v1 v2 hid1 hid2 hv1 hv2 [] f

/-- Claim C1 helper: the fixed-up, wrapped two-envelope body. -/
theorem wrapBody_two_envelopes (id1 id2 : List Char) (v1 v2 : JVal)
    (hid1 : safeChars id1) (hid2 : safeChars id2)
    (hv1 : safeJVal v1) (hv2 : safeJVal v2) :
    wrapBody (renderEnvelope id1 v1 ++ '\n' :: renderEnvelope id2 v2)
      = '[' :: (renderEnvelope id1 v1 ++ ',' :: '\n' :: (renderEnvelope id2 v2 ++ [']'])) := by
  have hbody : renderEnvelope id1 v1 ++ '\n' :: renderEnvelope id2 v2
      = ('\x7b' :: renderEnvelopeMid id1 v1)
        ++ '\x7d' :: '\n' :: '\x7b' :: (renderEnvelopeMid id2 v2 ++ ['\x7d']) := by
    simp [renderEnvelope]
  have hnlA : '\n' ∉ ('\x7b' :: renderEnvelopeMid id1 v1) := by
    intro h
    rcases List.mem_cons.mp h with h | h
    · exact absurd h (by decide)
    · exact absurd h (no_newline_renderEnvelopeMid id1 v1 hid1 hv1)
  have hfirst := isBoundary_drop_no_newline ('\x7b' :: renderEnvelopeMid id1 v1)
    ('\x7b' :: (renderEnvelopeMid id2 v2 ++ ['\x7d'])) hnlA
  have hcont := containsBoundary_junction ('\x7b' :: renderEnvelopeMid id1 v1)
    (renderEnvelopeMid id2 v2 ++ ['\x7d'])
  have hrep := replaceFirstBoundary_junction ('\x7b' :: renderEnvelopeMid id1 v1)
    (renderEnvelopeMid id2 v2 ++ ['\x7d']) hfirst
  rw [wrapBody, messageFixup, hbody, if_pos hcont, hrep]
  simp [renderEnvelope]

/-- Claim C1: for every raw body consisting of two response envelopes
separated by a single newline (quantified through the wire-form renderer over
all escape-free identifiers and scalar values), the fix-up step makes the
body parse as exactly the two-element envelope list; the envelope whose
echoed request identifier equals the sent one is returned by `Message`'s
post-transport pipeline (in particular, a request for the second identifier
resolves to the second envelope's value); and when no envelope matches, the
pipeline fails with a correlation error that carries — and whose text names —
the requested identifier, returning no envelope. -/
theorem message_two_envelopes (id1 id2 reqID : List Char) (v1 v2 : JVal)
    (hid1 : safeChars id1) (hid2 : safeChars id2)
    (hv1 : safeJVal v1) (hv2 : safeJVal v2) :
    unmarshalEnvs (wrapBody (renderEnvelope id1 v1 ++ '\n' :: renderEnvelope id2 v2))
      = some [envOf id1 v1, envOf id2 v2]
    ∧ (reqID = id1 →
        messageParse reqID (renderEnvelope id1 v1 ++ '\n' :: renderEnvelope id2 v2)
          = Except.ok (envOf id1 v1))
    ∧ (reqID ≠ id1 → reqID = id2 →
        messageParse reqID (renderEnvelope id1 v1 ++ '\n' :: renderEnvelope id2 v2)
          = Except.ok (envOf id2 v2))
    ∧ (reqID ≠ id1 → reqID ≠ id2 →
        messageParse reqID (renderEnvelope id1 v1 ++ '\n' :: renderEnvelope id2 v2)
          = Except.error (MsgErr.correlation reqID))
    ∧ msgErrText (MsgErr.correlation reqID)
      = lit "failed to find message with the same RequestID: \"" ++ reqID ++ ['"'] := by
  have hun : unmarshalEnvs (wrapBody (renderEnvelope id1 v1 ++ '\n' :: renderEnvelope id2 v2))
      = some [envOf id1 v1, envOf id2 v2] := by
    rw [wrapBody_two_envelopes id1 id2 v1 v2 hid1 hid2 hv1 hv2]
    exact unmarshalEnvs_two id1 id2 v1 v2 hid1 hid2 hv1 hv2
  refine ⟨hun, ?_, ?_, ?_, rfl⟩
  · intro h
    subst h
    simp [messageParse, hun, messageCorrelate, findMessage, List.find?, envOf, metaErrStr]
  · intro hne h
    subst h
    have hb1 : (reqID == id1) = false := beq_eq_false_iff_ne.mpr hne
    simp [messageParse, hun, messageCorrelate, findMessage, List.find?, envOf, metaErrStr, hb1]
  · intro h1 h2
    have hb1 : (reqID == id1) = false := beq_eq_false_iff_ne.mpr h1
    have hb2 : (reqID == id2) = false := beq_eq_false_iff_ne.mpr h2
    simp [messageParse, hun, messageCorrelate, findMessage, List.find?, envOf, metaErrStr, hb1, hb2]

/-- Claim C1, witness: the spec's own example — body
`("requestID" a, value 1) newline ("requestID" b, value 2)`; a request for
`b` resolves to value 2, and a request for `zz` fails with a correlation
error naming `zz`. -/
theorem message_two_envelopes_witness :
    safeChars (lit "a") ∧ safeChars (lit "b")
    ∧ renderEnvelope (lit "a") (JVal.num 1) ++ '\n' :: renderEnvelope (lit "b") (JVal.num 2)
        = lit "\x7b\"requestID\":\"a\",\"value\":1\x7d\n\x7b\"requestID\":\"b\",\"value\":2\x7d"
    ∧ unmarshalEnvs (wrapBody (renderEnvelope (lit "a") (JVal.num 1)
          ++ '\n' :: renderEnvelope (lit "b") (JVal.num 2)))
        = some [envOf (lit "a") (JVal.num 1), envOf (lit "b") (JVal.num 2)]
    ∧ messageParse (lit "b") (renderEnvelope (lit "a") (JVal.num 1)
          ++ '\n' :: renderEnvelope (lit "b") (JVal.num 2))
        = Except.ok (envOf (lit "b") (JVal.num 2))
    ∧ messageParse (lit "zz") (renderEnvelope (lit "a") (JVal.num 1)
          ++ '\n' :: renderEnvelope (lit "b") (JVal.num 2))
        = Except.error (MsgErr.correlation (lit "zz")) := by
  refine ⟨by decide, by decide, by decide, ?_, ?_, ?_⟩
  · exact (message_two_envelopes (lit "a") (lit "b") (lit "b") (JVal.num 1) (JVal.num 2)
      (by decide) (by decide) trivial trivial).1
  · exact (message_two_envelopes (lit "a") (lit "b") (lit "b") (JVal.num 1) (JVal.num 2)
      (by decide) (by decide) trivial trivial).2.2.1 (by decide) rfl
  · exact (message_two_envelopes (lit "a") (lit "b") (lit "zz") (JVal.num 1) (JVal.num 2)
      (by decide) (by decide) trivial trivial).2.2.2.1 (by decide) (by decide)

/-- Claim C6: whenever the envelope selected by request-identifier
correlation has a non-empty metadata error, `Message` fails — returning no
envelope — with a remote error whose text contains that error message and the
envelope's request UID. -/
theorem message_meta_error (reqID : List Char) (objs : List BrowserMessageOut)
    (resp : BrowserMessageOut)
    (hfind : findMessage reqID objs = some resp)
    (herr : metaErrStr resp ≠ []) :
    messageCorrelate reqID objs
      = Except.error (MsgErr.remote (metaErrStr resp) resp.meta.requestUID)
    ∧ msgErrText (MsgErr.remote (metaErrStr resp) resp.meta.requestUID)
      = lit "baas returned error: " ++ metaErrStr resp
        ++ lit ", baas RequestUID: \"" ++ resp.meta.requestUID ++ ['"'] := by
  constructor
  · simp [messageCorrelate, hfind, herr]
  · rfl

/-- Claim C6, witness: an envelope with metadata error `boom` and request
UID `job-1` makes the correlation step fail with the remote error carrying
both. -/
theorem message_meta_error_witness :
    messageCorrelate (lit "x") [⟨[], [], lit "x", ⟨some (lit "boom"), lit "job-1"⟩, [], none, [], [], [], [], []⟩]
      = Except.error (MsgErr.remote (lit "boom") (lit "job-1")) := by
  exact (message_meta_error (lit "x")
    [⟨[], [], lit "x", ⟨some (lit "boom"), lit "job-1"⟩, [], none, [], [], [], [], []⟩]
    ⟨[], [], lit "x", ⟨some (lit "boom"), lit "job-1"⟩, [], none, [], [], [], [], []⟩ (by decide) (by decide)).1

/-- Claim C9: a body containing no brace-newline-brace boundary is left
byte-for-byte unchanged by the fix-up step — only the surrounding brackets
are added — and therefore parses identically to wrapping the body
directly. -/
theorem fixup_no_boundary (s : List Char) (h : containsBoundary s = false) :
    messageFixup s = s
    ∧ wrapBody s = '[' :: (s ++ [']'])
    ∧ unmarshalEnvs (wrapBody s) = unmarshalEnvs ('[' :: (s ++ [']'])) := by
  have h1 : messageFixup s = s := by
    rw [messageFixup, if_neg (by simp [h])]
  exact ⟨h1, by rw [wrapBody, h1], by rw [wrapBody, h1]⟩

/-- Claim C9, witness: a single boundary-free envelope body passes through
the fix-up unchanged. -/
theorem fixup_no_boundary_witness :
    containsBoundary (lit "\x7b\"requestID\":\"a\",\"value\":1\x7d") = false
    ∧ messageFixup (lit "\x7b\"requestID\":\"a\",\"value\":1\x7d")
        = lit "\x7b\"requestID\":\"a\",\"value\":1\x7d"
    ∧ wrapBody (lit "\x7b\"requestID\":\"a\",\"value\":1\x7d")
        = '[' :: (lit "\x7b\"requestID\":\"a\",\"value\":1\x7d" ++ [']']) := by
  refine ⟨by decide, ?_, ?_⟩
  · exact (fixup_no_boundary (lit "\x7b\"requestID\":\"a\",\"value\":1\x7d") (by decide)).1
  · exact (fixup_no_boundary (lit "\x7b\"requestID\":\"a\",\"value\":1\x7d") (by decide)).2.1

end BaasClient
